import Mathlib

/-!
Verification of `specialsoss/binning.py` (functions `extract` and `bin_counts`).

Modelling conventions for the shallow embedding:

* numpy floating-point values are modelled as `Option ℚ`: `none` stands for
  NaN (a missing/invalid value), `some q` for the finite float `q`.
  Multiplication by a float follows IEEE semantics for NaN propagation:
  `NaN * x = NaN`, hence `Option.map (· * q)`.
* A 3D cube `(frames, rows, cols)` is a structure carrying its shape and a
  total indexing function; likewise a 4D cube `(f, g, rows, cols)`.
  Programs only ever read indices that are in range, so theorems about
  concrete runs only exercise in-range indices.
* In-place numpy mutation (`data *= pixel_mask`, binning.py line 117) is made
  explicit: `bin_counts` returns both the Python return value (the counts
  matrix) and the post-call contents of the caller's data buffer.
* The external collaborators (`hotsoss.locate_trace.trace_wavelengths`,
  `hotsoss.locate_trace.wavelength_bins`, `hotsoss.utils.counts_to_flux`,
  `utilities.combine_spectra`) and the random draw `np.random.normal` are
  opaque: they are fields of an environment structure `Env` over which the
  theorems quantify.  Constant keyword arguments of the source calls
  (`order=None`, `wavecal_file=None`, `npix=10`, `units`, `**kwargs`) are
  folded into the opaque functions.
* Python exceptions (`KeyError` on dict lookup, `IndexError` on list/array
  indexing, `NameError` for a variable read before assignment) are modelled
  with `Except String`.
-/

/-- A 3D data cube of shape `(frames, rows, cols)`; entries are floats
(`none` = NaN). -/
structure Cube3 where
  frames : ℕ
  rows : ℕ
  cols : ℕ
  val : ℕ → ℕ → ℕ → Option ℚ

/-- A 4D data cube of shape `(f, g, rows, cols)`. -/
structure Cube4 where
  f : ℕ
  g : ℕ
  rows : ℕ
  cols : ℕ
  val : ℕ → ℕ → ℕ → ℕ → Option ℚ

/-- An ndarray argument of `bin_counts`: either 3-dimensional or
4-dimensional (`data.ndim == 4`). -/
def NDData : Type := Cube3 ⊕ Cube4

/-- A 2D pixel mask (binning.py: `pixel_mask`, a 2D array of weights). -/
structure Mask2 where
  rows : ℕ
  cols : ℕ
  val : ℕ → ℕ → ℚ

/-- One wavelength bin: the pair `(xpix, ypix)` of pixel-index lists
(binning.py line 120 unpacks each entry of `wavebins` this way). -/
def WBin : Type := List ℕ × List ℕ

/-- Multiplication of a float by a float weight: NaN stays NaN. -/
def fmul (a : Option ℚ) (w : ℚ) : Option ℚ := a.map (fun x => x * w)

/-- NaN-safe summation (`np.nansum`): missing/invalid values count as zero. -/
def nansum (xs : List (Option ℚ)) : ℚ := (xs.map (fun o => o.getD 0)).sum

/-- Line 110: `data.reshape((shape[0]*shape[1], shape[2], shape[3]))` on a
C-ordered buffer; flat frame index `n` corresponds to `(n / g, n % g)`. -/
def reshape4to3 (c : Cube4) : Cube3 :=
  ⟨c.f * c.g, c.rows, c.cols, fun n r k => c.val (n / c.g) (n % c.g) r k⟩

/-- Lines 109-110: reshape into 3D when the input is 4-dimensional. -/
def to3 : NDData → Cube3
  | Sum.inl c => c
  | Sum.inr c => reshape4to3 c

/-- Number of frames `data.shape[0]` of the argument as passed (before any
reshape); used by `extract` line 43. -/
def ndFrames : NDData → ℕ
  | Sum.inl c => c.frames
  | Sum.inr c => c.f

/-- Spatial row count `data.shape[-2]`. -/
def ndRows : NDData → ℕ
  | Sum.inl c => c.rows
  | Sum.inr c => c.rows

/-- Spatial column count `data.shape[-1]`. -/
def ndCols : NDData → ℕ
  | Sum.inl c => c.cols
  | Sum.inr c => c.cols

/-- Line 117 on a 3D buffer: `data *= pixel_mask[None, :, :]`, guarded by the
shape test of line 116; when the shapes disagree the buffer is untouched. -/
def applyMask3 (c : Cube3) (m : Mask2) : Cube3 :=
  if m.rows = c.rows ∧ m.cols = c.cols then
    ⟨c.frames, c.rows, c.cols, fun f r k => fmul (c.val f r k) (m.val r k)⟩
  else c

/-- Line 117 when the caller passed a 4D buffer: the reshape of line 110 is a
view, so the multiplication writes through to the caller's 4D array. -/
def applyMask4 (c : Cube4) (m : Mask2) : Cube4 :=
  if m.rows = c.rows ∧ m.cols = c.cols then
    ⟨c.f, c.g, c.rows, c.cols, fun i j r k => fmul (c.val i j r k) (m.val r k)⟩
  else c

/-- The caller's buffer after lines 116-117. -/
def applyMaskND (d : NDData) (m : Mask2) : NDData :=
  match d with
  | Sum.inl c => Sum.inl (applyMask3 c m)
  | Sum.inr c => Sum.inr (applyMask4 c m)

/-- The buffer after the optional masking step (`pixel_mask=None` leaves it
untouched; a non-ndarray mask also would, which the `Option` already covers). -/
def maskedND (d : NDData) (m : Option Mask2) : NDData :=
  match m with
  | some mk => applyMaskND d mk
  | none => d

/-- Lines 113 and 119-121: allocate `np.zeros((data.shape[0], len(wavebins)))`
and fill column `n` with `np.nansum(data[:, xpix, ypix], axis=1)`.  The net
value is one row per frame, one column per bin. -/
def countsOf (c : Cube3) (wavebins : List WBin) : List (List ℚ) :=
  (List.range c.frames).map (fun f =>
    wavebins.map (fun wb =>
      nansum ((wb.1.zip wb.2).map (fun p => c.val f p.1 p.2))))

/-- The function `bin_counts(data, wavebins, pixel_mask=None)` of
binning.py lines 90-123.  The first component is the Python return value;
the second is the post-call contents of the caller's data buffer (mutated in
place by line 117 when a shape-matching ndarray mask is supplied). -/
def bin_counts (data : NDData) (wavebins : List WBin) (pixel_mask : Option Mask2) :
    List (List ℚ) × NDData :=
  let post := maskedND data pixel_mask
  (countsOf (to3 post) wavebins, post)

/-- The environment of opaque external collaborators used by `extract`.
`trace_wavelengths` and `wavelength_bins` take the subarray name;
`counts_to_flux` takes wavelength array, counts matrix, filter, subarray and
order number; `randn` is the oracle for `np.random.normal(loc=flux,
scale=flux*0.01)` (line 59); `combine_spectra` merges two
`(wavelength, flux, unc)` triples. -/
structure Env where
  trace_wavelengths : String → List (List ℚ)
  wavelength_bins : String → List (List WBin)
  counts_to_flux : List ℚ → List (List ℚ) → String → String → ℕ → List (List ℚ)
  randn : List (List ℚ) → List (List ℚ)
  combine_spectra : List ℚ × List ℚ × List ℚ → List ℚ × List ℚ × List ℚ →
    List ℚ × List ℚ × List ℚ

/-- One per-order result record (the per-order dict of line 70). -/
structure OrderRec where
  counts : List (List ℚ)
  flux : List (List ℚ)
  unc : List (List ℚ)
  wavelength : List ℚ
  filter : String
  subarray : String
deriving DecidableEq

/-- The dictionary returned by `extract`: the `orderN` entries in insertion
order, plus the `final` record (line 85). -/
structure ExtractResult where
  orders : List (String × OrderRec)
  final : OrderRec
deriving DecidableEq

/-- Fancy-index selection `arr[idx]` for a list of indices into a 1D array. -/
def applyPerm (idx : List ℕ) (xs : List ℚ) : List ℚ :=
  idx.map (fun i => xs.getD i 0)

/-- Column selection `arr[:, idx]` of a 2D array (lines 64-66). -/
def takeCols (idx : List ℕ) (m : List (List ℚ)) : List (List ℚ) :=
  m.map (fun row => applyPerm idx row)

/-- The index permutation `wavelength.argsort()` of line 62: the indices
`0, ..., len-1` sorted by their wavelength values (a stable sort; any sort
yields an equally valid permutation for the properties proved here). -/
def argsort (w : List ℚ) : List ℕ :=
  List.insertionSort (fun i j => w.getD i 0 ≤ w.getD j 0) (List.range w.length)

/-- The all-ones default mask `np.ones((rows, cols))` (line 47). -/
def onesMask (rows cols : ℕ) : Mask2 := ⟨rows, cols, fun _ _ => 1⟩

/-- The pixel-mask list actually iterated: the caller's masks, or the default
`np.ones((2, rows, cols))` of lines 46-47. -/
def masksOf (data : NDData) (pixel_masks : Option (List Mask2)) : List Mask2 :=
  match pixel_masks with
  | some ms => ms
  | none => [onesMask (ndRows data) (ndCols data), onesMask (ndRows data) (ndCols data)]

/-- One loop triple of line 50: `(wavelength, wavebin, mask)`. -/
def Triple : Type := List ℚ × List WBin × Mask2

/-- The three-way `zip` of line 50; like Python's `zip` it truncates to the
shortest input. -/
def zip3 : List (List ℚ) → List (List WBin) → List Mask2 → List Triple
  | w :: ws, b :: bs, m :: ms => (w, b, m) :: zip3 ws bs ms
  | _, _, _ => []

/-- Presort binned counts of one loop iteration (line 53), from the data
buffer as it stands when the iteration runs. -/
def countsAt (d : NDData) (t : Triple) : List (List ℚ) :=
  (bin_counts d t.2.1 (some t.2.2)).1

/-- Presort flux of one loop iteration (line 56); `n` is the 0-based loop
index, the order number passed is `n+1`. -/
def fluxAt (env : Env) (d : NDData) (filt subarray : String) (n : ℕ) (t : Triple) :
    List (List ℚ) :=
  env.counts_to_flux t.1 (countsAt d t) filt subarray (n + 1)

/-- Presort uncertainty of one loop iteration (line 59). -/
def uncAt (env : Env) (d : NDData) (filt subarray : String) (n : ℕ) (t : Triple) :
    List (List ℚ) :=
  env.randn (fluxAt env d filt subarray n t)

/-- The per-order record built by loop iteration `n` (lines 52-70): bin,
convert to flux, draw the uncertainty, then sort all four arrays by the
`argsort` of the wavelength. -/
def orderRecAt (env : Env) (d : NDData) (filt subarray : String) (n : ℕ) (t : Triple) :
    OrderRec :=
  let idx := argsort t.1
  ⟨takeCols idx (countsAt d t),
   takeCols idx (fluxAt env d filt subarray n t),
   takeCols idx (uncAt env d filt subarray n t),
   applyPerm idx t.1, filt, subarray⟩

/-- The extraction loop of lines 50-70, threading the data buffer (each
iteration's `bin_counts` call mutates it in place through line 117).
Returns the `orderN` entries in insertion order and the final buffer state. -/
def runOrders (env : Env) (filt subarray : String) :
    NDData → ℕ → List Triple → List (String × OrderRec) × NDData
  | d, _, [] => ([], d)
  | d, n, t :: rest =>
    let res := runOrders env filt subarray (bin_counts d t.2.1 (some t.2.2)).2 (n + 1) rest
    (("order" ++ toString (n + 1), orderRecAt env d filt subarray n t) :: res.1, res.2)

/-- The list of `(wavelength, wavebin, mask)` triples the loop of line 50
iterates over: the `zip` of the two lookups and the mask list. -/
def tripsOf (env : Env) (data : NDData) (pixel_masks : Option (List Mask2))
    (subarray : String) : List Triple :=
  zip3 (env.trace_wavelengths "SUBSTRIP256") (env.wavelength_bins subarray)
    (masksOf data pixel_masks)

/-- The `orderN` entries of the results dictionary as populated by the loop. -/
def ordersOf (env : Env) (data : NDData) (filt : String)
    (pixel_masks : Option (List Mask2)) (subarray : String) : List (String × OrderRec) :=
  (runOrders env filt subarray data 0 (tripsOf env data pixel_masks subarray)).1

/-- Python dict lookup `results[key]`, raising `KeyError` when absent. -/
def lookupRec : List (String × OrderRec) → String → Except String OrderRec
  | [], _ => Except.error "KeyError"
  | p :: rest, k => if p.1 = k then Except.ok p.2 else lookupRec rest k

/-- Row access `arr[n]` on a 2D array, raising `IndexError` when out of range. -/
def npRow (m : List (List ℚ)) (n : ℕ) : Except String (List ℚ) :=
  match m.get? n with
  | some r => Except.ok r
  | none => Except.error "IndexError"

/-- First element `xs[0]` of a list, raising `IndexError` when empty
(line 82: `combined[0]`). -/
def headE {α : Type} : List α → Except String α
  | [] => Except.error "IndexError"
  | a :: _ => Except.ok a

/-- The value of the loop variable `counts` after the loop, read at line 85:
the last iteration's sorted counts, or `NameError` when the loop never ran. -/
def lastCountsE (orders : List (String × OrderRec)) : Except String (List (List ℚ)) :=
  match orders.getLast? with
  | some p => Except.ok p.2.counts
  | none => Except.error "NameError"

/-- The body of the combination loop for frame `n` (lines 75-78): look up the
two per-order records, take their frame-`n` flux and uncertainty rows, and
call the combiner.  (The `print` of line 77 writes to stdout and is dropped.)
Lookups and row accesses fail in source evaluation order. -/
def combineFrame (env : Env) (orders : List (String × OrderRec)) (n : ℕ) :
    Except String (List ℚ × List ℚ × List ℚ) := do
  let o1 ← lookupRec orders "order1"
  let f1 ← npRow o1.flux n
  let u1 ← npRow o1.unc n
  let o2 ← lookupRec orders "order2"
  let f2 ← npRow o2.flux n
  let u2 ← npRow o2.unc n
  pure (env.combine_spectra (o1.wavelength, f1, u1) (o2.wavelength, f2, u2))

/-- Effectful list-building loop: `for n in xs: acc.append(f(n))`, stopping at
the first exception. -/
def mapME {α β : Type} (f : α → Except String β) : List α → Except String (List β)
  | [] => Except.ok []
  | a :: as => do
    let b ← f a
    let bs ← mapME f as
    pure (b :: bs)

/-- The function `extract(data, filt, pixel_masks=None, subarray='SUBSTRIP256',
units=..., **kwargs)` of binning.py lines 13-87.  Note line 39 calls
`trace_wavelengths` with the literal `subarray='SUBSTRIP256'` (and constant
`order=None, wavecal_file=None, npix=10`), while line 40 calls
`wavelength_bins(subarray=subarray)` with the caller's subarray. -/
def extract (env : Env) (data : NDData) (filt : String)
    (pixel_masks : Option (List Mask2)) (subarray : String) :
    Except String ExtractResult := do
  let nframes := ndFrames data
  let orders := ordersOf env data filt pixel_masks subarray
  let combined ← mapME (combineFrame env orders) (List.range nframes)
  let c0 ← headE combined
  let wave_final := c0.1
  let flux_final := combined.map (fun c => c.2.1)
  let unc_final := combined.map (fun c => c.2.2)
  let countsV ← lastCountsE orders
  pure ⟨orders, ⟨countsV, flux_final, unc_final, wave_final, filt, subarray⟩⟩

/-! Helper lemmas about the masking step. -/

theorem applyMaskND_mismatch (d : NDData) (m : Mask2)
    (h : ¬(m.rows = ndRows d ∧ m.cols = ndCols d)) : applyMaskND d m = d := by
  cases d with
  | inl c =>
    simp only [ndRows, ndCols] at h
    simp only [applyMaskND, applyMask3, if_neg h]
  | inr c =>
    simp only [ndRows, ndCols] at h
    simp only [applyMaskND, applyMask4, if_neg h]

theorem applyMaskND_ones (d : NDData) (m : Mask2)
    (hr : m.rows = ndRows d) (hc : m.cols = ndCols d)
    (h1 : ∀ r k, m.val r k = 1) : applyMaskND d m = d := by
  cases d with
  | inl c =>
    simp only [ndRows] at hr
    simp only [ndCols] at hc
    have hv : (fun f r k => fmul (c.val f r k) (m.val r k)) = c.val := by
      funext f r k
      simp [fmul, h1]
    simp only [applyMaskND, applyMask3, if_pos (And.intro hr hc), hv]
  | inr c =>
    simp only [ndRows] at hr
    simp only [ndCols] at hc
    have hv : (fun i j r k => fmul (c.val i j r k) (m.val r k)) = c.val := by
      funext i j r k
      simp [fmul, h1]
    simp only [applyMaskND, applyMask4, if_pos (And.intro hr hc), hv]

/-- C1: for a 3D cube the result of `bin_counts` has one row per frame, one
column per wavelength bin, and its entry at `(frame, bin)` is the NaN-safe
sum (`none` values counting as zero) of the masked values at the bin's
zipped `(x, y)` pixel indices in that frame. -/
theorem bin_counts_shape_and_entry (c : Cube3) (wbs : List WBin) (m : Option Mask2)
    (f b : ℕ) (t : WBin) (hf : f < c.frames) (hb : wbs.get? b = some t) :
    (bin_counts (Sum.inl c) wbs m).1.length = c.frames ∧
    (∀ row ∈ (bin_counts (Sum.inl c) wbs m).1, row.length = wbs.length) ∧
    ((bin_counts (Sum.inl c) wbs m).1.getD f []).getD b 0 =
      ((t.1.zip t.2).map
        (fun p => ((to3 (maskedND (Sum.inl c) m)).val f p.1 p.2).getD 0)).sum := by
  have hfr : (to3 (maskedND (Sum.inl c) m)).frames = c.frames := by
    cases m with
    | none => rfl
    | some mk =>
      show (applyMask3 c mk).frames = c.frames
      unfold applyMask3
      split <;> rfl
  refine ⟨?_, ?_, ?_⟩
  · simp [bin_counts, countsOf, hfr]
  · intro row hrow
    simp only [bin_counts, countsOf, List.mem_map] at hrow
    obtain ⟨a, _, hrw⟩ := hrow
    rw [← hrw]
    simp
  · simp only [bin_counts, countsOf]
    have hrow : ((List.range (to3 (maskedND (Sum.inl c) m)).frames).map
        (fun f => wbs.map (fun wb =>
          nansum ((wb.1.zip wb.2).map
            (fun p => (to3 (maskedND (Sum.inl c) m)).val f p.1 p.2))))).getD f [] =
        wbs.map (fun wb => nansum ((wb.1.zip wb.2).map
          (fun p => (to3 (maskedND (Sum.inl c) m)).val f p.1 p.2))) := by
      rw [List.getD_eq_getElem?_getD, List.getElem?_map,
        List.getElem?_range (by rw [hfr]; exact hf)]
      rfl
    rw [hrow, List.getD_eq_getElem?_getD, List.getElem?_map, ← List.get?_eq_getElem?, hb]
    simp [nansum, List.map_map, Function.comp_def]

/-- C4: on a 4D cube, `bin_counts` returns the same counts as on the cube
reshaped to `(F*G, rows, cols)` by merging the first two axes. -/
theorem bin_counts_4d_eq_reshaped (c : Cube4) (wbs : List WBin) (m : Option Mask2) :
    (bin_counts (Sum.inr c) wbs m).1 = (bin_counts (Sum.inl (reshape4to3 c)) wbs m).1 := by
  cases m with
  | none => rfl
  | some mk =>
    show countsOf (to3 (applyMaskND (Sum.inr c) mk)) wbs =
      countsOf (to3 (applyMaskND (Sum.inl (reshape4to3 c)) mk)) wbs
    have : to3 (applyMaskND (Sum.inr c) mk) = to3 (applyMaskND (Sum.inl (reshape4to3 c)) mk) := by
      show to3 (Sum.inr (applyMask4 c mk)) = applyMask3 (reshape4to3 c) mk
      unfold applyMask4 applyMask3
      by_cases h : mk.rows = c.rows ∧ mk.cols = c.cols
      · rw [if_pos h, if_pos (show mk.rows = (reshape4to3 c).rows ∧
          mk.cols = (reshape4to3 c).cols from h)]
        rfl
      · rw [if_neg h, if_neg (show ¬(mk.rows = (reshape4to3 c).rows ∧
          mk.cols = (reshape4to3 c).cols) from h)]
        rfl
    rw [this]

/-- C6: a supplied mask whose shape differs from the data's spatial shape is
silently ignored; `bin_counts` behaves exactly as with no mask at all, both
in its return value and in leaving the caller's buffer untouched. -/
theorem bin_counts_mask_shape_mismatch (d : NDData) (wbs : List WBin) (m : Mask2)
    (h : ¬(m.rows = ndRows d ∧ m.cols = ndCols d)) :
    bin_counts d wbs (some m) = bin_counts d wbs none := by
  simp [bin_counts, maskedND, applyMaskND_mismatch d m h]

/-- C9: an all-ones mask of the data's spatial shape is the identity: the
counts equal those of the unmasked call. -/
theorem bin_counts_ones_mask (d : NDData) (wbs : List WBin) (m : Mask2)
    (hr : m.rows = ndRows d) (hc : m.cols = ndCols d)
    (h1 : ∀ r k, m.val r k = 1) :
    (bin_counts d wbs (some m)).1 = (bin_counts d wbs none).1 := by
  simp [bin_counts, maskedND, applyMaskND_ones d m hr hc h1]

/-! Concrete inputs exhibiting the in-place mutation of the data buffer. -/

/-- A 1-frame 1x1 cube holding the single value 1. -/
def mutCube : Cube3 := ⟨1, 1, 1, fun _ _ _ => some 1⟩

/-- A shape-matching all-zero mask for `mutCube`. -/
def zeroMask1 : Mask2 := ⟨1, 1, fun _ _ => 0⟩

/-- A shape-matching all-ones mask for `mutCube`. -/
def onesMask1 : Mask2 := ⟨1, 1, fun _ _ => 1⟩

/-- The single wavelength bin covering the only pixel of `mutCube`. -/
def mutBins : List WBin := [([0], [0])]

/-- C3: `bin_counts` is not a pure transform of its inputs.  Line 117
(`data *= pixel_mask`) multiplies the caller's buffer in place: after a call
with the shape-matching zero mask the buffer's (0,0,0) entry is 0, not its
original value 1, and a subsequent binning of the same buffer (as happens
for order 2 inside `extract`) returns counts 0 where binning the original
buffer returns 1. -/
theorem bin_counts_mutates_caller_buffer :
    (to3 ((bin_counts (Sum.inl mutCube) mutBins (some zeroMask1)).2)).val 0 0 0 ≠
      mutCube.val 0 0 0 ∧
    (bin_counts ((bin_counts (Sum.inl mutCube) mutBins (some zeroMask1)).2)
      mutBins (some onesMask1)).1 = [[0]] ∧
    (bin_counts (Sum.inl mutCube) mutBins (some onesMask1)).1 = [[1]] := by
  refine ⟨?_, ?_, ?_⟩ <;>
    norm_num [bin_counts, maskedND, applyMaskND, applyMask3, to3, mutCube, zeroMask1,
      onesMask1, mutBins, countsOf, nansum, fmul, List.range_succ]

/-- Witness for C1 at a concrete input containing a NaN: the missing value
counts as zero in the bin sum. -/
theorem bin_counts_shape_and_entry_witness :
    (bin_counts (Sum.inl (⟨1, 1, 2, fun _ _ k => if k = 0 then none else some 5⟩ : Cube3))
        [([0, 0], [0, 1])] none).1.length = 1 ∧
    (∀ row ∈ (bin_counts (Sum.inl (⟨1, 1, 2, fun _ _ k => if k = 0 then none else some 5⟩ :
        Cube3)) [([0, 0], [0, 1])] none).1, row.length = 1) ∧
    ((bin_counts (Sum.inl (⟨1, 1, 2, fun _ _ k => if k = 0 then none else some 5⟩ : Cube3))
        [([0, 0], [0, 1])] none).1.getD 0 []).getD 0 0 =
      ((([0, 0].zip [0, 1]) : List (ℕ × ℕ)).map
        (fun p => ((to3 (maskedND (Sum.inl (⟨1, 1, 2, fun _ _ k =>
          if k = 0 then none else some 5⟩ : Cube3)) none)).val 0 p.1 p.2).getD 0)).sum :=
  bin_counts_shape_and_entry _ [([0, 0], [0, 1])] none 0 0 ([0, 0], [0, 1])
    (by decide) rfl

/-- Witness for C6: a 1x2 mask against 1x1 data is ignored. -/
theorem bin_counts_mask_shape_mismatch_witness :
    bin_counts (Sum.inl mutCube) mutBins (some (⟨1, 2, fun _ _ => 0⟩ : Mask2)) =
      bin_counts (Sum.inl mutCube) mutBins none :=
  bin_counts_mask_shape_mismatch (Sum.inl mutCube) mutBins ⟨1, 2, fun _ _ => 0⟩
    (by decide)

/-- Witness for C9 at the concrete 1x1 cube with the all-ones mask. -/
theorem bin_counts_ones_mask_witness :
    (bin_counts (Sum.inl mutCube) mutBins (some onesMask1)).1 =
      (bin_counts (Sum.inl mutCube) mutBins none).1 :=
  bin_counts_ones_mask (Sum.inl mutCube) mutBins onesMask1 rfl rfl (fun _ _ => rfl)

/-! Properties of `argsort` and of the extraction loop. -/

theorem argsort_perm (w : List ℚ) : (argsort w).Perm (List.range w.length) :=
  List.perm_insertionSort _ _

theorem argsort_sorted (w : List ℚ) :
    (argsort w).Pairwise (fun i j => w.getD i 0 ≤ w.getD j 0) := by
  haveI h1 : IsTotal ℕ (fun i j => w.getD i 0 ≤ w.getD j 0) :=
    ⟨fun i j => le_total _ _⟩
  haveI h2 : IsTrans ℕ (fun i j => w.getD i 0 ≤ w.getD j 0) :=
    ⟨fun _ _ _ hab hbc => le_trans hab hbc⟩
  exact List.sorted_insertionSort _ _

theorem applyPerm_argsort_sorted (w : List ℚ) :
    (applyPerm (argsort w) w).Sorted (fun a b => a ≤ b) := by
  unfold applyPerm
  rw [List.Sorted, List.pairwise_map]
  exact argsort_sorted w

/-- The state of the data buffer when loop iteration `k` starts: the first
`k` iterations have each applied their mask in place. -/
def dataBefore : NDData → List Triple → ℕ → NDData
  | d, _, 0 => d
  | d, [], _ + 1 => d
  | d, t :: rest, k + 1 => dataBefore (bin_counts d t.2.1 (some t.2.2)).2 rest k

/-- Entry `k` of the loop's results: key `order(k+1)` and the record built at
iteration `k` from the buffer state `dataBefore`. -/
theorem runOrders_get? (env : Env) (filt subarray : String) :
    ∀ (ts : List Triple) (d : NDData) (n k : ℕ),
      (runOrders env filt subarray d n ts).1.get? k =
        (ts.get? k).map (fun t =>
          ("order" ++ toString (n + k + 1),
           orderRecAt env (dataBefore d ts k) filt subarray (n + k) t))
  | [], d, n, k => by simp [runOrders]
  | t :: rest, d, n, 0 => by simp [runOrders, dataBefore]
  | t :: rest, d, n, k + 1 => by
    have ih := runOrders_get? env filt subarray rest
      (bin_counts d t.2.1 (some t.2.2)).2 (n + 1) k
    simp only [runOrders, List.get?_cons_succ]
    rw [ih]
    simp only [show n + 1 + k = n + (k + 1) from by omega]
    rfl

theorem runOrders_length (env : Env) (filt subarray : String) :
    ∀ (ts : List Triple) (d : NDData) (n : ℕ),
      (runOrders env filt subarray d n ts).1.length = ts.length
  | [], _, _ => rfl
  | _ :: rest, d, n => by
    simp only [runOrders, List.length_cons]
    rw [runOrders_length env filt subarray rest _ (n + 1)]

/-! Plumbing lemmas for the `Except` monad and for `mapME` and `zip3`. -/

theorem bindE_ok {α β : Type} (a : α) (f : α → Except String β) :
    (Except.ok a >>= f) = f a := rfl

theorem bindE_err {α β : Type} (e : String) (f : α → Except String β) :
    ((Except.error e : Except String α) >>= f) = Except.error e := rfl

theorem mapE_ok {α β : Type} (g : α → β) (a : α) :
    (g <$> (Except.ok a : Except String α)) = Except.ok (g a) := rfl

theorem mapE_err {α β : Type} (g : α → β) (e : String) :
    (g <$> (Except.error e : Except String α)) = Except.error e := rfl

theorem pureE {α : Type} (a : α) : (pure a : Except String α) = Except.ok a := rfl

theorem mapME_ok_length {α β : Type} (f : α → Except String β) :
    ∀ (xs : List α) (ys : List β), mapME f xs = Except.ok ys → ys.length = xs.length
  | [], ys, h => by
    simp only [mapME] at h
    cases h
    rfl
  | x :: xs, ys, h => by
    simp only [mapME] at h
    cases hf : f x with
    | error e => rw [hf, bindE_err] at h; cases h
    | ok b =>
      rw [hf, bindE_ok] at h
      cases hm : mapME f xs with
      | error e => rw [hm, bindE_err] at h; cases h
      | ok bs =>
        rw [hm, bindE_ok, pureE] at h
        cases h
        simp only [List.length_cons]
        rw [mapME_ok_length f xs bs hm]

theorem mapME_ok_get? {α β : Type} (f : α → Except String β) :
    ∀ (xs : List α) (ys : List β), mapME f xs = Except.ok ys →
      ∀ (k : ℕ) (x : α), xs.get? k = some x →
        ∃ y, ys.get? k = some y ∧ f x = Except.ok y
  | [], ys, h, k, x, hx => by cases hx
  | x :: xs, ys, h, k, x2, hx => by
    simp only [mapME] at h
    cases hf : f x with
    | error e => rw [hf, bindE_err] at h; cases h
    | ok b =>
      rw [hf, bindE_ok] at h
      cases hm : mapME f xs with
      | error e => rw [hm, bindE_err] at h; cases h
      | ok bs =>
        rw [hm, bindE_ok, pureE] at h
        cases h
        cases k with
        | zero =>
          cases hx
          exact ⟨b, rfl, hf⟩
        | succ k2 =>
          simp only [List.get?_cons_succ] at hx ⊢
          exact mapME_ok_get? f xs bs hm k2 x2 hx

theorem zip3_get? :
    ∀ (ws : List (List ℚ)) (bs : List (List WBin)) (ms : List Mask2) (k : ℕ)
      (t : Triple), (zip3 ws bs ms).get? k = some t →
      ws.get? k = some t.1 ∧ bs.get? k = some t.2.1 ∧ ms.get? k = some t.2.2
  | w :: ws, b :: bs, m :: ms, 0, t, h => by
    simp only [zip3, List.get?_cons_zero, Option.some.injEq] at h
    rw [← h]
    exact ⟨rfl, rfl, rfl⟩
  | w :: ws, b :: bs, m :: ms, k + 1, t, h => by
    simp only [zip3, List.get?_cons_succ] at h ⊢
    exact zip3_get? ws bs ms k t h
  | [], _, _, k, t, h => by cases h
  | _ :: _, [], _, k, t, h => by cases h
  | _ :: _, _ :: _, [], k, t, h => by cases h

theorem zip3_take_min :
    ∀ (ws : List (List ℚ)) (bs : List (List WBin)) (ms : List Mask2),
      zip3 ws bs (ms.take (min ws.length bs.length)) = zip3 ws bs ms
  | [], bs, ms => by cases bs <;> cases ms <;> rfl
  | w :: ws, [], ms => by cases ms <;> rfl
  | w :: ws, b :: bs, [] => by rw [List.take_nil]
  | w :: ws, b :: bs, m :: ms => by
    simp only [List.length_cons]
    have hmin : min (ws.length + 1) (bs.length + 1) = min ws.length bs.length + 1 := by
      omega
    rw [hmin]
    simp only [List.take_succ_cons, zip3]
    rw [zip3_take_min ws bs ms]

/-- Inversion of a successful `extract` call into the success of each of its
fallible stages. -/
theorem extract_ok_elim (env : Env) (data : NDData) (filt : String)
    (pm : Option (List Mask2)) (subarray : String) (r : ExtractResult)
    (h : extract env data filt pm subarray = Except.ok r) :
    ∃ (combined : List (List ℚ × List ℚ × List ℚ)) (c0 : List ℚ × List ℚ × List ℚ)
      (cnts : List (List ℚ)),
      mapME (combineFrame env (ordersOf env data filt pm subarray))
        (List.range (ndFrames data)) = Except.ok combined ∧
      headE combined = Except.ok c0 ∧
      lastCountsE (ordersOf env data filt pm subarray) = Except.ok cnts ∧
      r = ⟨ordersOf env data filt pm subarray,
           ⟨cnts, combined.map (fun c => c.2.1), combined.map (fun c => c.2.2),
            c0.1, filt, subarray⟩⟩ := by
  simp only [extract] at h
  cases hm : mapME (combineFrame env (ordersOf env data filt pm subarray))
      (List.range (ndFrames data)) with
  | error e =>
    rw [hm, bindE_err] at h
    cases h
  | ok combined =>
    rw [hm, bindE_ok] at h
    cases hh : headE combined with
    | error e =>
      rw [hh, bindE_err] at h
      cases h
    | ok c0 =>
      rw [hh, bindE_ok] at h
      cases hl : lastCountsE (ordersOf env data filt pm subarray) with
      | error e =>
        rw [hl, bindE_err] at h
        cases h
      | ok cnts =>
        rw [hl, bindE_ok, pureE] at h
        cases h
        exact ⟨combined, c0, cnts, rfl, hh, rfl, rfl⟩

/-- Inversion of a successful `combineFrame` call. -/
theorem combineFrame_ok_elim (env : Env) (orders : List (String × OrderRec))
    (n : ℕ) (c : List ℚ × List ℚ × List ℚ)
    (h : combineFrame env orders n = Except.ok c) :
    ∃ o1 f1 u1 o2 f2 u2,
      lookupRec orders "order1" = Except.ok o1 ∧
      npRow o1.flux n = Except.ok f1 ∧
      npRow o1.unc n = Except.ok u1 ∧
      lookupRec orders "order2" = Except.ok o2 ∧
      npRow o2.flux n = Except.ok f2 ∧
      npRow o2.unc n = Except.ok u2 ∧
      c = env.combine_spectra (o1.wavelength, f1, u1) (o2.wavelength, f2, u2) := by
  simp only [combineFrame] at h
  cases h1 : lookupRec orders "order1" with
  | error e => rw [h1, bindE_err] at h; cases h
  | ok o1 =>
    rw [h1, bindE_ok] at h
    cases h2 : npRow o1.flux n with
    | error e => rw [h2, bindE_err] at h; cases h
    | ok f1 =>
      rw [h2, bindE_ok] at h
      cases h3 : npRow o1.unc n with
      | error e => rw [h3, bindE_err] at h; cases h
      | ok u1 =>
        rw [h3, bindE_ok] at h
        cases h4 : lookupRec orders "order2" with
        | error e => rw [h4, bindE_err] at h; cases h
        | ok o2 =>
          rw [h4, bindE_ok] at h
          cases h5 : npRow o2.flux n with
          | error e => rw [h5, bindE_err] at h; cases h
          | ok f2 =>
            rw [h5, bindE_ok] at h
            cases h6 : npRow o2.unc n with
            | error e => rw [h6, bindE_err] at h; cases h
            | ok u2 =>
              rw [h6, bindE_ok, pureE] at h
              cases h
              exact ⟨o1, f1, u1, o2, f2, u2, rfl, h2, h3, rfl, h5, h6, rfl⟩

/-- C2: on success of `extract`, every per-order record has its wavelength
array sorted in non-decreasing order, and a single index permutation of the
original wavelength positions, applied alike to the wavelength array and to
the columns of the counts, flux and uncertainty matrices, produces the
record from that order's unsorted arrays — so wavelengths and per-frame
columns stay index-aligned. -/
theorem extract_orders_sorted_aligned (env : Env) (data : NDData) (filt : String)
    (pm : Option (List Mask2)) (subarray : String) (r : ExtractResult)
    (h : extract env data filt pm subarray = Except.ok r)
    (k : ℕ) (name : String) (orec : OrderRec)
    (hk : r.orders.get? k = some (name, orec)) :
    orec.wavelength.Sorted (fun a b => a ≤ b) ∧
    ∃ t : Triple, (tripsOf env data pm subarray).get? k = some t ∧
      ∃ idx : List ℕ, idx.Perm (List.range t.1.length) ∧
        orec.wavelength = applyPerm idx t.1 ∧
        orec.counts =
          takeCols idx (countsAt (dataBefore data (tripsOf env data pm subarray) k) t) ∧
        orec.flux = takeCols idx
          (fluxAt env (dataBefore data (tripsOf env data pm subarray) k) filt subarray k t) ∧
        orec.unc = takeCols idx
          (uncAt env (dataBefore data (tripsOf env data pm subarray) k) filt subarray k t) := by
  obtain ⟨combined, c0, cnts, _, _, _, hr⟩ := extract_ok_elim env data filt pm subarray r h
  have horders : r.orders = ordersOf env data filt pm subarray := by rw [hr]
  rw [horders] at hk
  simp only [ordersOf] at hk
  rw [runOrders_get? env filt subarray (tripsOf env data pm subarray) data 0 k] at hk
  cases ht : (tripsOf env data pm subarray).get? k with
  | none =>
    rw [ht] at hk
    cases hk
  | some t =>
    rw [ht, Option.map_some'] at hk
    have horec : orec = orderRecAt env (dataBefore data (tripsOf env data pm subarray) k)
        filt subarray (0 + k) t := by
      cases hk
      rfl
    simp only [Nat.zero_add] at horec
    refine ⟨?_, t, rfl, argsort t.1, argsort_perm t.1, ?_, ?_, ?_, ?_⟩
    · rw [horec]
      simp only [orderRecAt]
      exact applyPerm_argsort_sorted t.1
    · rw [horec]; rfl
    · rw [horec]; rfl
    · rw [horec]; rfl
    · rw [horec]; rfl

/-- C5 amended: each per-order record of a successful `extract` call is built
from the wavelength array obtained by the trace lookup at the FIXED subarray
name "SUBSTRIP256" (line 39 hardcodes it) together with the wavelength-bin
grouping obtained by the bins lookup at the caller's subarray (line 40). -/
theorem extract_lookup_parameterization (env : Env) (data : NDData) (filt : String)
    (pm : Option (List Mask2)) (subarray : String) (r : ExtractResult)
    (h : extract env data filt pm subarray = Except.ok r)
    (k : ℕ) (name : String) (orec : OrderRec)
    (hk : r.orders.get? k = some (name, orec)) :
    ∃ (w : List ℚ) (bins : List WBin) (mask : Mask2),
      (env.trace_wavelengths "SUBSTRIP256").get? k = some w ∧
      (env.wavelength_bins subarray).get? k = some bins ∧
      (masksOf data pm).get? k = some mask ∧
      name = "order" ++ toString (k + 1) ∧
      orec = orderRecAt env (dataBefore data (tripsOf env data pm subarray) k)
        filt subarray k (w, bins, mask) := by
  obtain ⟨_, _, _, _, _, _, hr⟩ := extract_ok_elim env data filt pm subarray r h
  have horders : r.orders = ordersOf env data filt pm subarray := by rw [hr]
  rw [horders] at hk
  simp only [ordersOf] at hk
  rw [runOrders_get? env filt subarray (tripsOf env data pm subarray) data 0 k] at hk
  cases ht : (tripsOf env data pm subarray).get? k with
  | none =>
    rw [ht] at hk
    cases hk
  | some t =>
    rw [ht, Option.map_some'] at hk
    obtain ⟨hw, hb, hm⟩ := zip3_get? _ _ _ k t ht
    refine ⟨t.1, t.2.1, t.2.2, hw, hb, hm, ?_, ?_⟩
    · cases hk
      simp only [Nat.zero_add]
    · cases hk
      simp only [Nat.zero_add]
      rfl

theorem zip3_length_le :
    ∀ (ws : List (List ℚ)) (bs : List (List WBin)) (ms : List Mask2),
      (zip3 ws bs ms).length ≤ ms.length
  | [], bs, ms => by cases bs <;> cases ms <;> simp [zip3]
  | w :: ws, [], ms => by cases ms <;> simp [zip3]
  | w :: ws, b :: bs, [] => by simp [zip3]
  | w :: ws, b :: bs, m :: ms => by
    simp only [zip3, List.length_cons, Nat.add_le_add_iff_right]
    exact zip3_length_le ws bs ms

/-- With fewer than two per-order records, the combination loop body always
fails: dict lookup of `order1` or `order2`, or the frame row access, raises. -/
theorem combineFrame_short (env : Env) (orders : List (String × OrderRec)) (n : ℕ)
    (h : orders.length < 2) :
    ∃ e, combineFrame env orders n = Except.error e := by
  cases orders with
  | nil => exact ⟨"KeyError", rfl⟩
  | cons p rest =>
    cases rest with
    | cons q more =>
      simp only [List.length_cons] at h
      omega
    | nil =>
      by_cases hp : p.1 = "order1"
      · cases hf : p.2.flux[n]? with
        | none =>
          exact ⟨"IndexError", by
            simp [combineFrame, lookupRec, if_pos hp, npRow, hf, bindE_ok, bindE_err]⟩
        | some f1 =>
          cases hu : p.2.unc[n]? with
          | none =>
            exact ⟨"IndexError", by
              simp [combineFrame, lookupRec, if_pos hp, npRow, hf, hu, bindE_ok, bindE_err]⟩
          | some u1 =>
            refine ⟨"KeyError", by
              simp [combineFrame, lookupRec, if_pos hp, npRow, hf, hu, bindE_ok, bindE_err,
                if_neg (show ¬p.1 = "order2" by rw [hp]; decide)]⟩
      · exact ⟨"KeyError", by simp [combineFrame, lookupRec, if_neg hp, bindE_err]⟩

/-- C7 amended: supplying fewer than two pixel masks always makes `extract`
fail, whatever the lookups return; but supplying more masks than the number
of orders implied by the lookups does not fail by itself — the `zip` of
line 50 silently truncates, so the call behaves exactly as if the mask list
were cut down to the number of orders. -/
theorem extract_mask_count_behavior (env : Env) (data : NDData) (filt subarray : String)
    (ms : List Mask2) :
    (ms.length < 2 → ∃ e, extract env data filt (some ms) subarray = Except.error e) ∧
    extract env data filt (some ms) subarray =
      extract env data filt
        (some (ms.take (min (env.trace_wavelengths "SUBSTRIP256").length
          (env.wavelength_bins subarray).length))) subarray := by
  constructor
  · intro hms
    have hlen : (ordersOf env data filt (some ms) subarray).length < 2 := by
      simp only [ordersOf]
      rw [runOrders_length]
      calc (tripsOf env data (some ms) subarray).length
          ≤ ms.length := zip3_length_le _ _ _
        _ < 2 := hms
    cases hn : ndFrames data with
    | zero =>
      refine ⟨"IndexError", ?_⟩
      simp [extract, hn, mapME, headE, bindE_ok, bindE_err, pureE]
    | succ m =>
      obtain ⟨e, he⟩ := combineFrame_short env (ordersOf env data filt (some ms) subarray) 0 hlen
      refine ⟨e, ?_⟩
      simp [extract, hn, List.range_succ_eq_map, mapME, he, bindE_err, bindE_ok]
  · have hord : ordersOf env data filt (some ms) subarray =
        ordersOf env data filt
          (some (ms.take (min (env.trace_wavelengths "SUBSTRIP256").length
            (env.wavelength_bins subarray).length))) subarray := by
      simp only [ordersOf, tripsOf, masksOf]
      rw [zip3_take_min]
    unfold extract
    rw [hord]

theorem headE_ok_elim {α : Type} (l : List α) (a : α) (h : headE l = Except.ok a) :
    ∃ rest, l = a :: rest := by
  cases l with
  | nil => cases h
  | cons x rest =>
    simp only [headE, Except.ok.injEq] at h
    exact ⟨rest, by rw [h]⟩

/-- C8: on success, the results dictionary holds both per-order records, the
final record's wavelength is the first frame's combined wavelength grid, and
the final flux and uncertainty arrays stack exactly one combiner output row
per frame; when the combiner's flux and uncertainty rows all have one fixed
length `L`, those stacks have shape `(frames, L)`. -/
theorem extract_final_shape (env : Env) (data : NDData) (filt : String)
    (pm : Option (List Mask2)) (subarray : String) (r : ExtractResult) (L : ℕ)
    (h : extract env data filt pm subarray = Except.ok r)
    (hL : ∀ i, i < ndFrames data →
      Except.map (fun c => (c.2.1.length, c.2.2.length))
        (combineFrame env (ordersOf env data filt pm subarray) i) = Except.ok (L, L)) :
    (∃ o1, lookupRec r.orders "order1" = Except.ok o1) ∧
    (∃ o2, lookupRec r.orders "order2" = Except.ok o2) ∧
    (∃ c0, combineFrame env (ordersOf env data filt pm subarray) 0 = Except.ok c0 ∧
      r.final.wavelength = c0.1) ∧
    r.final.flux.length = ndFrames data ∧
    r.final.unc.length = ndFrames data ∧
    (∀ i, i < ndFrames data →
      ∃ ci, combineFrame env (ordersOf env data filt pm subarray) i = Except.ok ci ∧
        r.final.flux.get? i = some ci.2.1 ∧ r.final.unc.get? i = some ci.2.2) ∧
    (∀ row ∈ r.final.flux, row.length = L) ∧
    (∀ row ∈ r.final.unc, row.length = L) := by
  obtain ⟨combined, c0, cnts, hm, hh, hl, hr⟩ := extract_ok_elim env data filt pm subarray r h
  obtain ⟨restc, hcr⟩ := headE_ok_elim combined c0 hh
  subst hcr
  have hclen : (c0 :: restc).length = ndFrames data := by
    rw [mapME_ok_length _ _ _ hm, List.length_range]
  have hpos : 0 < ndFrames data := by
    rw [← hclen]
    simp
  have hget : ∀ i, i < ndFrames data →
      ∃ y, (c0 :: restc).get? i = some y ∧
        combineFrame env (ordersOf env data filt pm subarray) i = Except.ok y := by
    intro i hi
    obtain ⟨y, hy1, hy2⟩ := mapME_ok_get? _ _ _ hm i i (List.get?_range hi)
    exact ⟨y, hy1, hy2⟩
  obtain ⟨y0, hy0c, hy0⟩ := hget 0 hpos
  have hc0 : y0 = c0 := by
    simp only [List.get?_cons_zero, Option.some.injEq] at hy0c
    rw [hy0c]
  obtain ⟨o1, f1, u1, o2, f2, u2, ho1, _, _, ho2, _, _, _⟩ :=
    combineFrame_ok_elim env (ordersOf env data filt pm subarray) 0 y0 hy0
  have horders : r.orders = ordersOf env data filt pm subarray := by rw [hr]
  have hflux : r.final.flux = (c0 :: restc).map (fun c => c.2.1) := by rw [hr]
  have hunc : r.final.unc = (c0 :: restc).map (fun c => c.2.2) := by rw [hr]
  have hrowlen : ∀ y ∈ c0 :: restc, y.2.1.length = L ∧ y.2.2.length = L := by
    intro y hy
    obtain ⟨i, hi⟩ := List.mem_iff_get?.mp hy
    have hilt : i < ndFrames data := by
      rw [← hclen]
      exact List.get?_eq_some.mp hi |>.1
    obtain ⟨y2, hy2c, hy2⟩ := hget i hilt
    have : y = y2 := by
      rw [hi] at hy2c
      cases hy2c
      rfl
    subst this
    have := hL i hilt
    rw [hy2] at this
    simp only [Except.map, Except.ok.injEq, Prod.mk.injEq] at this
    exact this
  refine ⟨⟨o1, by rw [horders]; exact ho1⟩, ⟨o2, by rw [horders]; exact ho2⟩,
    ⟨c0, by rw [← hc0]; exact hy0, by rw [hr]⟩, ?_, ?_, ?_, ?_, ?_⟩
  · rw [hflux, List.length_map, hclen]
  · rw [hunc, List.length_map, hclen]
  · intro i hi
    obtain ⟨y, hy1, hy2⟩ := hget i hi
    refine ⟨y, hy2, ?_, ?_⟩
    · rw [hflux, List.get?_map, hy1]
      rfl
    · rw [hunc, List.get?_map, hy1]
      rfl
  · intro row hrow
    rw [hflux] at hrow
    obtain ⟨y, hy, hyr⟩ := List.mem_map.mp hrow
    rw [← hyr]
    exact (hrowlen y hy).1
  · intro row hrow
    rw [hunc] at hrow
    obtain ⟨y, hy, hyr⟩ := List.mem_map.mp hrow
    rw [← hyr]
    exact (hrowlen y hy).2

/-- C10: when exactly two orders are processed, the final record's `counts`
field is the order-2 record's sorted counts array — the value the loop
variable `counts` holds after the last iteration (line 85 stores the leaked
loop variable) — not any per-frame combination of the two orders. -/
theorem extract_final_counts_is_order2 (env : Env) (data : NDData) (filt : String)
    (pm : Option (List Mask2)) (subarray : String) (r : ExtractResult)
    (h : extract env data filt pm subarray = Except.ok r)
    (h2 : (tripsOf env data pm subarray).length = 2) :
    ∃ rec2, lookupRec r.orders "order2" = Except.ok rec2 ∧
      r.final.counts = rec2.counts := by
  obtain ⟨combined, c0, cnts, hm, hh, hl, hr⟩ := extract_ok_elim env data filt pm subarray r h
  obtain ⟨t0, t1, ht⟩ := List.length_eq_two.mp h2
  have hord : ordersOf env data filt pm subarray =
      [("order1", orderRecAt env data filt subarray 0 t0),
       ("order2", orderRecAt env (bin_counts data t0.2.1 (some t0.2.2)).2
          filt subarray 1 t1)] := by
    simp only [ordersOf, ht, runOrders]
    norm_num [show toString (1 : ℕ) = "1" from rfl, show toString (2 : ℕ) = "2" from rfl,
      show ("order" ++ "1" : String) = "order1" from rfl,
      show ("order" ++ "2" : String) = "order2" from rfl]
  rw [hord] at hl
  simp only [lastCountsE, List.getLast?] at hl
  have hcnts : cnts = (orderRecAt env (bin_counts data t0.2.1 (some t0.2.2)).2
      filt subarray 1 t1).counts := by
    simp only [List.getLast, Except.ok.injEq] at hl
    rw [← hl]
  refine ⟨orderRecAt env (bin_counts data t0.2.1 (some t0.2.2)).2 filt subarray 1 t1, ?_, ?_⟩
  · have : r.orders = ordersOf env data filt pm subarray := by rw [hr]
    rw [this, hord]
    simp [lookupRec, if_neg (show ¬("order1" : String) = "order2" by decide),
      if_pos (show ("order2" : String) = "order2" from rfl)]
  · have : r.final.counts = cnts := by rw [hr]
    rw [this, hcnts]
def exEnv : Env :=
  ⟨fun _ => [[2, 1], [4, 3]],
   fun _ => [[([0], [0]), ([0], [1])], [([0], [0]), ([0], [1])]],
   fun _ c _ _ _ => c,
   fun m => m,
   fun s1 _ => s1⟩

/-- Witness data: one frame of one row and two columns holding 3 and 5. -/
def exData : NDData := Sum.inl ⟨1, 1, 2, fun _ _ k => some (if k = 0 then 3 else 5)⟩

/-- A shape-matching all-ones mask for `exData`. -/
def exMask : Mask2 := ⟨1, 2, fun _ _ => 1⟩

/-- The result of `extract` on the witness input: wavelengths get sorted and
all per-frame arrays get their columns swapped accordingly. -/
def exRes : ExtractResult :=
  ⟨[("order1", ⟨[[5, 3]], [[5, 3]], [[5, 3]], [1, 2], "CLEAR", "SUBSTRIP256"⟩),
    ("order2", ⟨[[5, 3]], [[5, 3]], [[5, 3]], [3, 4], "CLEAR", "SUBSTRIP256"⟩)],
   ⟨[[5, 3]], [[5, 3]], [[5, 3]], [1, 2], "CLEAR", "SUBSTRIP256"⟩⟩

/-- Evaluation of `extract` on the witness input (two matching masks). -/
theorem extract_exEnv_eval :
    extract exEnv exData "CLEAR" (some [exMask, exMask]) "SUBSTRIP256" =
      Except.ok exRes := by
  norm_num [extract, ordersOf, tripsOf, masksOf, runOrders, orderRecAt, countsAt, fluxAt,
    uncAt, argsort, applyPerm, takeCols, bin_counts, maskedND, applyMaskND, applyMask3,
    to3, countsOf, nansum, fmul, exEnv, exData, exMask, exRes, zip3, ndFrames,
    List.insertionSort, List.orderedInsert, List.range_succ, mapME, combineFrame,
    lookupRec, npRow, headE, lastCountsE, bindE_ok, bindE_err, mapE_ok, mapE_err, pureE,
    show toString (1 : ℕ) = "1" from rfl, show toString (2 : ℕ) = "2" from rfl,
    show ("order" ++ "1" : String) = "order1" from rfl,
    show ("order" ++ "2" : String) = "order2" from rfl,
    if_neg (by decide : ¬("order1" : String) = "order2"),
    if_neg (by decide : ¬("order2" : String) = "order1"),
    if_pos (by decide : ("order1" : String) = "order1"),
    if_pos (by decide : ("order2" : String) = "order2")]

/-- Witness for C2: the first per-order record of the concrete run. -/
theorem extract_orders_sorted_aligned_witness :
    (⟨[[5, 3]], [[5, 3]], [[5, 3]], [1, 2], "CLEAR", "SUBSTRIP256"⟩ :
        OrderRec).wavelength.Sorted (fun a b => a ≤ b) ∧
    ∃ t : Triple,
      (tripsOf exEnv exData (some [exMask, exMask]) "SUBSTRIP256").get? 0 = some t ∧
      ∃ idx : List ℕ, idx.Perm (List.range t.1.length) ∧
        (⟨[[5, 3]], [[5, 3]], [[5, 3]], [1, 2], "CLEAR", "SUBSTRIP256"⟩ :
          OrderRec).wavelength = applyPerm idx t.1 ∧
        (⟨[[5, 3]], [[5, 3]], [[5, 3]], [1, 2], "CLEAR", "SUBSTRIP256"⟩ :
          OrderRec).counts = takeCols idx
            (countsAt (dataBefore exData
              (tripsOf exEnv exData (some [exMask, exMask]) "SUBSTRIP256") 0) t) ∧
        (⟨[[5, 3]], [[5, 3]], [[5, 3]], [1, 2], "CLEAR", "SUBSTRIP256"⟩ :
          OrderRec).flux = takeCols idx
            (fluxAt exEnv (dataBefore exData
              (tripsOf exEnv exData (some [exMask, exMask]) "SUBSTRIP256") 0)
              "CLEAR" "SUBSTRIP256" 0 t) ∧
        (⟨[[5, 3]], [[5, 3]], [[5, 3]], [1, 2], "CLEAR", "SUBSTRIP256"⟩ :
          OrderRec).unc = takeCols idx
            (uncAt exEnv (dataBefore exData
              (tripsOf exEnv exData (some [exMask, exMask]) "SUBSTRIP256") 0)
              "CLEAR" "SUBSTRIP256" 0 t) :=
  extract_orders_sorted_aligned exEnv exData "CLEAR" (some [exMask, exMask])
    "SUBSTRIP256" exRes extract_exEnv_eval 0 "order1"
    ⟨[[5, 3]], [[5, 3]], [[5, 3]], [1, 2], "CLEAR", "SUBSTRIP256"⟩ rfl

/-- Environment whose wavelength lookup distinguishes the subarray name. -/
def env5 : Env :=
  ⟨fun s => if s = "SUBSTRIP256" then [[2, 1], [4, 3]] else [[10, 20], [30, 40]],
   fun _ => [[([0], [0]), ([0], [1])], [([0], [0]), ([0], [1])]],
   fun _ c _ _ _ => c,
   fun m => m,
   fun s1 _ => s1⟩

/-- The result of `extract` on `env5` with caller subarray "FULL". -/
def exRes5 : ExtractResult :=
  ⟨[("order1", ⟨[[5, 3]], [[5, 3]], [[5, 3]], [1, 2], "CLEAR", "FULL"⟩),
    ("order2", ⟨[[5, 3]], [[5, 3]], [[5, 3]], [3, 4], "CLEAR", "FULL"⟩)],
   ⟨[[5, 3]], [[5, 3]], [[5, 3]], [1, 2], "CLEAR", "FULL"⟩⟩

/-- C5 counterexample: calling `extract` with subarray "FULL" still takes the
per-order wavelengths from the lookup at the hardcoded name "SUBSTRIP256":
the order-1 record's wavelength array is [1, 2] (sorted [2, 1] from the
"SUBSTRIP256" lookup), not [10, 20], the sorted wavelength array the "FULL"
lookup would give. -/
theorem extract_subarray_hardcoded_counterexample :
    extract env5 exData "CLEAR" (some [exMask, exMask]) "FULL" = Except.ok exRes5 ∧
    (env5.trace_wavelengths "FULL").get? 0 = some [10, 20] ∧
    exRes5.orders.get? 0 =
      some ("order1", ⟨[[5, 3]], [[5, 3]], [[5, 3]], [1, 2], "CLEAR", "FULL"⟩) ∧
    applyPerm (argsort [10, 20]) [10, 20] = [10, 20] ∧
    ([1, 2] : List ℚ) ≠ [10, 20] := by
  refine ⟨?_, ?_, rfl, ?_, ?_⟩
  · norm_num [extract, ordersOf, tripsOf, masksOf, runOrders, orderRecAt, countsAt, fluxAt,
      uncAt, argsort, applyPerm, takeCols, bin_counts, maskedND, applyMaskND, applyMask3,
      to3, countsOf, nansum, fmul, env5, exData, exMask, exRes5, zip3, ndFrames,
      List.insertionSort, List.orderedInsert, List.range_succ, mapME, combineFrame,
      lookupRec, npRow, headE, lastCountsE, bindE_ok, bindE_err, mapE_ok, mapE_err, pureE,
      show toString (1 : ℕ) = "1" from rfl, show toString (2 : ℕ) = "2" from rfl,
      show ("order" ++ "1" : String) = "order1" from rfl,
      show ("order" ++ "2" : String) = "order2" from rfl,
      if_neg (by decide : ¬("order1" : String) = "order2"),
      if_neg (by decide : ¬("order2" : String) = "order1"),
      if_pos (by decide : ("order1" : String) = "order1"),
      if_pos (by decide : ("order2" : String) = "order2"),
      if_neg (by decide : ¬("FULL" : String) = "SUBSTRIP256")]
  · norm_num [env5, if_neg (by decide : ¬("FULL" : String) = "SUBSTRIP256")]
  · norm_num [applyPerm, argsort, List.insertionSort, List.orderedInsert, List.range_succ]
  · norm_num

/-- Witness for the amended C5 at the concrete run. -/
theorem extract_lookup_parameterization_witness :
    ∃ (w : List ℚ) (bins : List WBin) (mask : Mask2),
      (exEnv.trace_wavelengths "SUBSTRIP256").get? 0 = some w ∧
      (exEnv.wavelength_bins "SUBSTRIP256").get? 0 = some bins ∧
      (masksOf exData (some [exMask, exMask])).get? 0 = some mask ∧
      "order1" = "order" ++ toString (0 + 1) ∧
      (⟨[[5, 3]], [[5, 3]], [[5, 3]], [1, 2], "CLEAR", "SUBSTRIP256"⟩ : OrderRec) =
        orderRecAt exEnv
          (dataBefore exData (tripsOf exEnv exData (some [exMask, exMask]) "SUBSTRIP256") 0)
          "CLEAR" "SUBSTRIP256" 0 (w, bins, mask) :=
  extract_lookup_parameterization exEnv exData "CLEAR" (some [exMask, exMask])
    "SUBSTRIP256" exRes extract_exEnv_eval 0 "order1"
    ⟨[[5, 3]], [[5, 3]], [[5, 3]], [1, 2], "CLEAR", "SUBSTRIP256"⟩ rfl

/-- C7 counterexample: the bins lookup implies two orders, yet supplying
THREE pixel masks does not make `extract` fail — the `zip` of line 50
truncates to two iterations and the call returns the same result as with
two masks. -/
theorem extract_extra_masks_counterexample :
    (exEnv.wavelength_bins "SUBSTRIP256").length = 2 ∧
    extract exEnv exData "CLEAR" (some [exMask, exMask, exMask]) "SUBSTRIP256" =
      Except.ok exRes := by
  refine ⟨rfl, ?_⟩
  norm_num [extract, ordersOf, tripsOf, masksOf, runOrders, orderRecAt, countsAt, fluxAt,
    uncAt, argsort, applyPerm, takeCols, bin_counts, maskedND, applyMaskND, applyMask3,
    to3, countsOf, nansum, fmul, exEnv, exData, exMask, exRes, zip3, ndFrames,
    List.insertionSort, List.orderedInsert, List.range_succ, mapME, combineFrame,
    lookupRec, npRow, headE, lastCountsE, bindE_ok, bindE_err, mapE_ok, mapE_err, pureE,
    show toString (1 : ℕ) = "1" from rfl, show toString (2 : ℕ) = "2" from rfl,
    show ("order" ++ "1" : String) = "order1" from rfl,
    show ("order" ++ "2" : String) = "order2" from rfl,
    if_neg (by decide : ¬("order1" : String) = "order2"),
    if_neg (by decide : ¬("order2" : String) = "order1"),
    if_pos (by decide : ("order1" : String) = "order1"),
    if_pos (by decide : ("order2" : String) = "order2")]

/-- Witness for the amended C7: a single mask makes the call fail, and the
call with one mask equals the call with the mask list truncated to the
order count. -/
theorem extract_mask_count_behavior_witness :
    (∃ e, extract exEnv exData "CLEAR" (some [exMask]) "SUBSTRIP256" =
      Except.error e) ∧
    extract exEnv exData "CLEAR" (some [exMask]) "SUBSTRIP256" =
      extract exEnv exData "CLEAR"
        (some ([exMask].take (min (exEnv.trace_wavelengths "SUBSTRIP256").length
          (exEnv.wavelength_bins "SUBSTRIP256").length))) "SUBSTRIP256" :=
  ⟨(extract_mask_count_behavior exEnv exData "CLEAR" "SUBSTRIP256" [exMask]).1
      (by norm_num),
   (extract_mask_count_behavior exEnv exData "CLEAR" "SUBSTRIP256" [exMask]).2⟩

/-- Witness for C8 at the concrete run, with combiner row length 2. -/
theorem extract_final_shape_witness :
    (∃ o1, lookupRec exRes.orders "order1" = Except.ok o1) ∧
    (∃ o2, lookupRec exRes.orders "order2" = Except.ok o2) ∧
    (∃ c0, combineFrame exEnv
        (ordersOf exEnv exData "CLEAR" (some [exMask, exMask]) "SUBSTRIP256") 0 =
        Except.ok c0 ∧ exRes.final.wavelength = c0.1) ∧
    exRes.final.flux.length = ndFrames exData ∧
    exRes.final.unc.length = ndFrames exData ∧
    (∀ i, i < ndFrames exData →
      ∃ ci, combineFrame exEnv
          (ordersOf exEnv exData "CLEAR" (some [exMask, exMask]) "SUBSTRIP256") i =
          Except.ok ci ∧
        exRes.final.flux.get? i = some ci.2.1 ∧ exRes.final.unc.get? i = some ci.2.2) ∧
    (∀ row ∈ exRes.final.flux, row.length = 2) ∧
    (∀ row ∈ exRes.final.unc, row.length = 2) :=
  extract_final_shape exEnv exData "CLEAR" (some [exMask, exMask]) "SUBSTRIP256"
    exRes 2 extract_exEnv_eval
    (by
      intro i hi
      have h0 : i = 0 := by
        simp only [ndFrames, exData] at hi
        omega
      subst h0
      norm_num [ordersOf, tripsOf, masksOf, runOrders, orderRecAt, countsAt, fluxAt,
        uncAt, argsort, applyPerm, takeCols, bin_counts, maskedND, applyMaskND,
        applyMask3, to3, countsOf, nansum, fmul, exEnv, exData, exMask, zip3, ndFrames,
        List.insertionSort, List.orderedInsert, List.range_succ, combineFrame,
        lookupRec, npRow, headE, bindE_ok, bindE_err, mapE_ok, mapE_err, pureE,
        Except.map,
        show toString (1 : ℕ) = "1" from rfl, show toString (2 : ℕ) = "2" from rfl,
        show ("order" ++ "1" : String) = "order1" from rfl,
        show ("order" ++ "2" : String) = "order2" from rfl,
        if_neg (by decide : ¬("order1" : String) = "order2"),
        if_neg (by decide : ¬("order2" : String) = "order1"),
        if_pos (by decide : ("order1" : String) = "order1"),
        if_pos (by decide : ("order2" : String) = "order2")])

/-- Witness for C10 at the concrete run. -/
theorem extract_final_counts_is_order2_witness :
    ∃ rec2, lookupRec exRes.orders "order2" = Except.ok rec2 ∧
      exRes.final.counts = rec2.counts :=
  extract_final_counts_is_order2 exEnv exData "CLEAR" (some [exMask, exMask])
    "SUBSTRIP256" exRes extract_exEnv_eval rfl
